import Mathlib

/-!
Verification of the JoyCore-FW host-side configuration tooling.

The Python scripts under scrutiny decode a binary configuration blob
(`parse_config_header`, `parse_usb_descriptor`, `parse_stored_config`,
`parse_config_data`), a status record (`parse_config_status`), build
64-byte HID feature-report frames (`create_config_message`,
`create_message`), unwrap response frames (`parse_config_response`),
and parse line-oriented serial responses (`parse_file_data`, the
IDENTIFY handshake).  Byte buffers are modelled as `List Nat` (each
entry a byte value), text as `List Char`/`String`, and fallible code
as `Option`.
-/

namespace JoyCore

/-- Little-endian 16-bit read at index `i`, as `struct.unpack('<H', data[i:i+2])`
on an in-range slice. -/
def readLE16 (d : List Nat) (i : Nat) : Nat :=
  d.getD i 0 + 256 * d.getD (i + 1) 0

/-- Little-endian 32-bit read at index `i`, as `struct.unpack('<I', data[i:i+4])`
on an in-range slice. -/
def readLE32 (d : List Nat) (i : Nat) : Nat :=
  d.getD i 0 + 256 * d.getD (i + 1) 0 + 65536 * d.getD (i + 2) 0 +
    16777216 * d.getD (i + 3) 0

/-- Models Python `bytes.decode('utf-8', errors='ignore')` restricted to the
ASCII range: bytes below 0x80 become their character, all others are dropped.
(The scripts' string fields hold ASCII; multi-byte UTF-8 sequences are not
modelled.) -/
def decodeUtf8Ignore (bs : List Nat) : List Char :=
  (bs.filter (fun b => b < 128)).map Char.ofNat

/-- Python `str.rstrip('\x00')`: drop trailing NUL characters. -/
def rstripNul (l : List Char) : List Char :=
  (l.reverse.dropWhile (fun c => c = Char.ofNat 0)).reverse

/-- The `magic_str` computation shared by the decoders:
`''.join(chr((magic >> (8*i)) & 0xFF) for i in range(4))`. -/
def magicStr (m : Nat) : String :=
  String.mk [Char.ofNat (m % 256), Char.ofNat (m / 256 % 256),
    Char.ofNat (m / 65536 % 256), Char.ofNat (m / 16777216 % 256)]

/-- Result of `parse_config_status` in `read_config_hid.py` (a dict there). -/
structure ConfigStatusR where
  storageInitialized : Bool
  configLoaded : Bool
  usingDefaults : Bool
  currentMode : Nat
  storageUsed : Nat
  storageAvailable : Nat
  configVersion : Nat
  modeName : String
deriving Repr, DecidableEq

/-- `parse_config_status(data)` from `read_config_hid.py` lines 76-104
(identical to `JoyCoreConfig.parse_status` in `read_config_winusb.py`):
rejects buffers of fewer than 20 bytes, otherwise reads bytes 0-13. -/
def parse_config_status (d : List Nat) : Option ConfigStatusR :=
  if d.length < 20 then none
  else
    let m := d.getD 3 0
    some { storageInitialized := d.getD 0 0 ≠ 0
           configLoaded := d.getD 1 0 ≠ 0
           usingDefaults := d.getD 2 0 ≠ 0
           currentMode := m
           storageUsed := readLE32 d 4
           storageAvailable := readLE32 d 8
           configVersion := readLE16 d 12
           modeName :=
             if m = 0 then "STATIC" else if m = 1 then "STORAGE"
             else if m = 2 then "HYBRID" else "UNKNOWN" }

/-- The seven locals bound by the inline ConfigStatus decoding of
`test_get_status` in `src/test/test_config.py`. -/
structure TestStatusR where
  storage_initialized : Bool
  config_loaded : Bool
  using_defaults : Bool
  current_mode : Nat
  storage_used : Nat
  storage_available : Nat
  config_version : Nat
deriving Repr, DecidableEq

/-- The inline ConfigStatus decoding of `test_get_status` in
`src/test/test_config.py` lines 154-170: guarded by a declared data length of
at least 16 bytes, it reads the same 14 bytes of fields. -/
def test_status_fields (d : List Nat) : Option TestStatusR :=
  if 16 ≤ d.length then
    some { storage_initialized := d.getD 0 0 ≠ 0
           config_loaded := d.getD 1 0 ≠ 0
           using_defaults := d.getD 2 0 ≠ 0
           current_mode := d.getD 3 0
           storage_used := readLE32 d 4
           storage_available := readLE32 d 8
           config_version := readLE16 d 12 }
  else none

/-- Result of `parse_config_header` in `read_config_hid.py`. -/
structure ConfigHeaderR where
  magic : Nat
  version : Nat
  size : Nat
  checksum : Nat
  magic_str : String
deriving Repr, DecidableEq

/-- `parse_config_header(data)` from `read_config_hid.py` lines 106-121
(the same layout as `parse_config_header` in `read_rp2040_storage.py`):
rejects buffers of fewer than 16 bytes, never validates the magic. -/
def parse_config_header (d : List Nat) : Option ConfigHeaderR :=
  if d.length < 16 then none
  else
    let m := readLE32 d 0
    some { magic := m
           version := readLE16 d 4
           size := readLE16 d 6
           checksum := readLE32 d 8
           magic_str := magicStr m }

/-- Result of `parse_usb_descriptor` in `read_config_hid.py`. -/
structure UsbDescR where
  vendorID : Nat
  productID : Nat
  manufacturer : List Char
  product : List Char
deriving Repr, DecidableEq

/-- `parse_usb_descriptor(data)` from `read_config_hid.py` lines 123-135:
rejects buffers of fewer than 76 bytes. -/
def parse_usb_descriptor (d : List Nat) : Option UsbDescR :=
  if d.length < 76 then none
  else
    some { vendorID := readLE16 d 0
           productID := readLE16 d 2
           manufacturer := rstripNul (decodeUtf8Ignore ((d.drop 4).take 32))
           product := rstripNul (decodeUtf8Ignore ((d.drop 36).take 32)) }

/-- One axis record as decoded by `parse_stored_config` in `read_config_hid.py`. -/
structure AxisR where
  enabled : Bool
  pin : Nat
  minValue : Nat
  maxValue : Nat
  filterLevel : Nat
  ewmaAlpha : Nat
  deadband : Nat
  curve : Nat
deriving Repr, DecidableEq

/-- The axis record read at offset `off` (only reached when
`off + 16 <= d.length`). -/
def axisAt (d : List Nat) (off : Nat) : AxisR :=
  { enabled := d.getD off 0 ≠ 0
    pin := d.getD (off + 1) 0
    minValue := readLE16 d (off + 2)
    maxValue := readLE16 d (off + 4)
    filterLevel := d.getD (off + 6) 0
    ewmaAlpha := d.getD (off + 7) 0
    deadband := readLE16 d (off + 8)
    curve := d.getD (off + 10) 0 }

/-- The `for i in range(8)` axis loop of `parse_stored_config`
(`read_config_hid.py` lines 162-176): each iteration appends an axis and
advances the offset by 16 only when 16 more bytes fit; returns the axes
collected and the final offset. -/
def parseAxes (d : List Nat) : Nat → Nat → List AxisR × Nat
  | 0, off => ([], off)
  | n + 1, off =>
    if off + 16 ≤ d.length then
      let r := parseAxes d n (off + 16)
      (axisAt d off :: r.1, r.2)
    else
      parseAxes d n off

/-- Result of `parse_stored_config` in `read_config_hid.py`: the counts are
`none` when the buffer ends before offset 96 (the dict then simply lacks the
keys), and the pin-map/logical-input tables are never decoded — only their
starting offset is recorded. -/
structure StoredConfigR where
  header : ConfigHeaderR
  usb : UsbDescR
  counts : Option (Nat × Nat × Nat)
  axes : List AxisR
  variable_data_offset : Nat
deriving Repr, DecidableEq

/-- `parse_stored_config(data)` from `read_config_hid.py` lines 137-181:
header at offset 0, USB descriptor at offset 16, counts at offset 92 when
present, up to 8 axis records from offset 96 (92 when the counts were
absent), no record tables. -/
def parse_stored_config (d : List Nat) : Option StoredConfigR :=
  match parse_config_header d with
  | none => none
  | some h =>
    match parse_usb_descriptor (d.drop 16) with
    | none => none
    | some u =>
      let counts :=
        if 96 ≤ d.length then some (d.getD 92 0, d.getD 93 0, d.getD 94 0)
        else none
      let off1 := if 96 ≤ d.length then 96 else 92
      some { header := h
             usb := u
             counts := counts
             axes := (parseAxes d 8 off1).1
             variable_data_offset := (parseAxes d 8 off1).2 }

/-- `create_config_message(msg_type, sequence, total_packets, data)` from
`read_config_hid.py` lines 50-74.  The Python builds a 64-byte bytearray,
stores the header fields, packs the 16-bit little-endian `dataLength`, and
slice-assigns `message[8:8+len(data)] = data` — which for `len(data) > 56`
grows the bytearray past 64 bytes.  `none` models the exceptions Python
raises: a byte-field value of 256 or more, a data byte out of range, or a
`dataLength` that does not fit `<H`. -/
def create_config_message (msg_type sequence total_packets : Nat)
    (data : List Nat) : Option (List Nat) :=
  if 256 ≤ msg_type ∨ 256 ≤ sequence ∨ 256 ≤ total_packets ∨
      65536 ≤ data.length ∨ ¬ data.all (fun b => b < 256) then none
  else
    some ([2, msg_type, sequence, total_packets,
           data.length % 256, data.length / 256, 0, 0] ++
          data ++ List.replicate (56 - data.length) 0)

/-- The loop `for i in range(min(len(data), 56)): message[8+i] = data[i]` of
`JoyCoreConfig.create_message` in `read_config_winusb.py`. -/
def copyData (msg data : List Nat) : Nat → List Nat
  | 0 => msg
  | i + 1 => (copyData msg data i).set (8 + i) (data.getD i 0)

/-- `JoyCoreConfig.create_message(msg_type, data)` from
`read_config_winusb.py` lines 122-142: a 64-entry list with the header
fields at indices 0-7 (`sequence` fixed 0, `totalPackets` fixed 1,
`dataLength` little-endian with the high byte masked), then at most 56
payload bytes copied in. -/
def create_message (msg_type : Nat) (data : List Nat) : List Nat :=
  let base := [2, msg_type, 0, 1, data.length % 256, data.length / 256 % 256,
               0, 0] ++ List.replicate 56 0
  copyData base data (min data.length 56)

/-- Result of `parse_config_response` in `src/test/test_config.py`. -/
structure ConfigResponseR where
  report_id : Nat
  type : Nat
  sequence : Nat
  total_packets : Nat
  data_length : Nat
  status : Nat
  data : List Nat
deriving Repr, DecidableEq

/-- `parse_config_response(response)` from `src/test/test_config.py` lines
96-118: rejects buffers shorter than 8 bytes, then takes
`response[8:8+data_length]` — a Python slice, which clamps at the end of the
buffer instead of failing. -/
def parse_config_response (r : List Nat) : Option ConfigResponseR :=
  if r.length < 8 then none
  else
    let dl := r.getD 4 0 + 256 * r.getD 5 0
    some { report_id := r.getD 0 0
           type := r.getD 1 0
           sequence := r.getD 2 0
           total_packets := r.getD 3 0
           data_length := dl
           status := r.getD 6 0
           data := if 0 < dl then (r.drop 8).take dl else [] }

/-- One hex digit, uppercase, as Python `%X` formatting emits it. -/
def hexU (n : Nat) : Char :=
  if n < 10 then Char.ofNat (48 + n) else Char.ofNat (55 + n)

/-- Python `f"0x{n:0wX}"`: `w` big-endian uppercase hex digits after `0x`. -/
def pyHex (w n : Nat) : List Char :=
  '0' :: 'x' :: ((List.range w).reverse.map (fun i => hexU (n / 16 ^ i % 16)))

/-- The header dict built by `parse_config_data` in `read_config_serial.py`
(magic and checksum kept as formatted hex strings, as the script does). -/
structure SerialHeaderR where
  magic : List Char
  magic_str : String
  version : Nat
  size : Nat
  checksum : List Char
deriving Repr, DecidableEq

/-- The USB dict built by `parse_config_data` in `read_config_serial.py`. -/
structure SerialUsbR where
  vendorID : List Char
  productID : List Char
  manufacturer : List Char
  product : List Char
deriving Repr, DecidableEq

/-- Result of `parse_config_data` in `read_config_serial.py`: the `usb` and
`counts` keys are present only when the buffer is long enough. -/
structure SerialConfigR where
  header : SerialHeaderR
  usb : Option SerialUsbR
  counts : Option (Nat × Nat × Nat)
deriving Repr, DecidableEq

/-- `parse_config_data(data)` from `read_config_serial.py` lines 79-122:
rejects only buffers shorter than 16 bytes and never validates the magic. -/
def parse_config_data (d : List Nat) : Option SerialConfigR :=
  if d.length < 16 then none
  else
    let m := readLE32 d 0
    some { header :=
             { magic := pyHex 8 m
               magic_str := magicStr m
               version := readLE16 d 4
               size := readLE16 d 6
               checksum := pyHex 8 (readLE32 d 8) }
           usb :=
             if 92 ≤ d.length then
               some { vendorID := pyHex 4 (readLE16 d 16)
                      productID := pyHex 4 (readLE16 d 18)
                      manufacturer := rstripNul (decodeUtf8Ignore ((d.drop 20).take 32))
                      product := rstripNul (decodeUtf8Ignore ((d.drop 52).take 32)) }
             else none
           counts :=
             if 96 ≤ d.length then some (d.getD 92 0, d.getD 93 0, d.getD 94 0)
             else none }

/-- Python `line.startswith(p)`: the first `len(p)` characters equal `p`. -/
def startsWith (p l : List Char) : Bool :=
  l.take p.length == p

/-- Locate the first colon: `some (before, after)` when one exists. -/
def breakColon : List Char → Option (List Char × List Char)
  | [] => none
  | c :: cs =>
    if c = ':' then some ([], cs)
    else
      match breakColon cs with
      | none => none
      | some (p, q) => some (c :: p, q)

/-- Python `s.split(':', maxsplit)`: split at most `maxsplit` times. -/
def splitMax : Nat → List Char → List (List Char)
  | 0, l => [l]
  | n + 1, l =>
    match breakColon l with
    | none => [l]
    | some (p, q) => p :: splitMax n q

/-- Python `s.split(':')` (unbounded): always returns at least one field. -/
def splitCols : List Char → List (List Char)
  | [] => [[]]
  | c :: cs =>
    if c = ':' then [] :: splitCols cs
    else (c :: (splitCols cs).headD []) :: (splitCols cs).tail

/-- The IDENTIFY response check of `test_joycore_identification` in
`src/test/test_device_identification.py` lines 70-91: split the line on
colons; when there are at least 4 fields and the first three are exactly
`JOYCORE_ID`, `JOYCORE-FW` and `4A4F5943`, the fourth field is the firmware
version. -/
def identify (line : List Char) : Option (List Char) :=
  let parts := splitCols line
  if 4 ≤ parts.length ∧ parts.getD 0 [] = "JOYCORE_ID".toList ∧
      parts.getD 1 [] = "JOYCORE-FW".toList ∧
      parts.getD 2 [] = "4A4F5943".toList
  then some (parts.getD 3 [])
  else none

/-- Models Python `int()` on the strings this protocol produces: a nonempty
run of decimal digits parses to its value; anything else raises (`none`).
(Signs, surrounding whitespace and underscores, which Python also accepts,
are not modelled; no claim feeds them to the parser.) -/
def pyInt (l : List Char) : Option Nat :=
  if l ≠ [] ∧ l.all Char.isDigit then
    some (l.foldl (fun acc c => 10 * acc + (c.toNat - 48)) 0)
  else none

/-- Decimal rendering of a natural number, as Python `str(n)` prints it. -/
def toDec (n : Nat) : List Char :=
  if h : n < 10 then [Char.ofNat (48 + n)]
  else toDec (n / 10) ++ [Char.ofNat (48 + n % 10)]
decreasing_by exact Nat.div_lt_self (by omega) (by omega)

/-- One hex digit, lowercase, as Python `bytes.hex()` emits it. -/
def hexL (n : Nat) : Char :=
  if n < 10 then Char.ofNat (48 + n) else Char.ofNat (87 + n)

/-- Lowercase hex rendering of a byte string, as Python `bytes.hex()`. -/
def toHex (bs : List Nat) : List Char :=
  bs.flatMap (fun b => [hexL (b / 16), hexL (b % 16)])

/-- The value of one hex digit, either case; `none` for a non-digit. -/
def hexVal (c : Char) : Option Nat :=
  if '0' ≤ c ∧ c ≤ '9' then some (c.toNat - 48)
  else if 'a' ≤ c ∧ c ≤ 'f' then some (c.toNat - 87)
  else if 'A' ≤ c ∧ c ≤ 'F' then some (c.toNat - 55)
  else none

/-- Models Python `bytes.fromhex` on whitespace-free input: pairs of hex
digits become bytes, an odd length or a non-digit raises (`none`).  (The
separating spaces Python tolerates are not modelled; the scripts never
produce them.) -/
def fromHex : List Char → Option (List Nat)
  | [] => some []
  | [_] => none
  | c1 :: c2 :: rest =>
    match hexVal c1, hexVal c2, fromHex rest with
    | some hi, some lo, some bs => some ((16 * hi + lo) :: bs)
    | _, _, _ => none

/-- `parse_file_data(response_line)` from `read_config_serial.py` lines
61-77: a line not starting with `FILE_DATA:`, or splitting (with maxsplit 3)
into other than 4 fields, yields the failure pair `(None, None)`; otherwise
the size field goes through `int()` and the hex field through
`bytes.fromhex` (either raising — the outer `none`), and the filename and
decoded bytes are returned. -/
def parse_file_data (line : List Char) :
    Option (Option (List Char) × Option (List Nat)) :=
  if ¬ startsWith "FILE_DATA:".toList line then some (none, none)
  else
    let parts := splitMax 3 line
    if parts.length ≠ 4 then some (none, none)
    else
      match pyInt (parts.getD 2 []) with
      | none => none
      | some _ =>
        match fromHex (parts.getD 3 []) with
        | none => none
        | some data => some (some (parts.getD 1 []), some data)

/-- The well-formed FILE_DATA line of claim C9:
`"FILE_DATA:" + name + ":" + str(len(d)) + ":" + d.hex()`. -/
def fileDataLine (name : List Char) (d : List Nat) : List Char :=
  "FILE_DATA:".toList ++ name ++ ':' :: toDec d.length ++ ':' :: toHex d

/-! ## Concrete buffers used by the theorems -/

/-- The 16-byte status payload of claim C3:
`01 01 00 02 10 00 00 00 00 04 00 00 05 00 00 00`. -/
def statusPayload16 : List Nat :=
  [0x01, 0x01, 0x00, 0x02, 0x10, 0x00, 0x00, 0x00,
   0x00, 0x04, 0x00, 0x00, 0x05, 0x00, 0x00, 0x00]

/-- The 16 header bytes of claim C6: magic `4A 4F 59 43`, version `0x0001`,
size `0x0090`, checksum `0x00000000`, 4 reserved zero bytes. -/
def hdrC6 : List Nat :=
  [0x4A, 0x4F, 0x59, 0x43, 0x01, 0x00, 0x90, 0x00,
   0x00, 0x00, 0x00, 0x00, 0x00, 0x00, 0x00, 0x00]

/-- A 96-byte buffer with a valid `JOYC` magic whose counts declare 5
pin-map and 5 logical-input records, but which ends immediately after the
count field — too short for the 8-axis table, let alone the records. -/
def shortTables96 : List Nat :=
  [0x4A, 0x4F, 0x59, 0x43] ++ List.replicate 88 0 ++ [5, 5, 0, 0]

/-! ## C3 — the 16-byte status payload -/

/-- C3 counterexample: `parse_config_status` — the ConfigStatus parser the
claim names — requires at least 20 bytes and rejects the 16-byte payload
instead of succeeding. -/
theorem c3_status16_rejected : parse_config_status statusPayload16 = none := by
  decide

/-- C3 (amended): the 16-byte payload is below `parse_config_status`'s
20-byte minimum and is rejected; the inline decoder of `test_get_status`
(which needs only 16 bytes) yields exactly the claimed field values, and
`parse_config_status` yields them as well once the payload is extended by
four zero bytes to the full 20-byte `ConfigStatus` size. -/
theorem c3_status16_values :
    test_status_fields statusPayload16 =
      some { storage_initialized := true, config_loaded := true,
             using_defaults := false, current_mode := 2, storage_used := 16,
             storage_available := 1024, config_version := 5 } ∧
    parse_config_status (statusPayload16 ++ [0, 0, 0, 0]) =
      some { storageInitialized := true, configLoaded := true,
             usingDefaults := false, currentMode := 2, storageUsed := 16,
             storageAvailable := 1024, configVersion := 5,
             modeName := "HYBRID" } := by
  constructor
  · decide
  · decide

/-! ## C1 — magic is never validated -/

/-- C1 counterexample: a 92-byte all-zero buffer, whose first 4 bytes are
not the magic (neither as the value `0x4A4F5943` nor as the byte sequence
`4A 4F 59 43`), still decodes successfully — no `InvalidMagic` rejection
exists. -/
theorem c1_no_invalid_magic :
    readLE32 (List.replicate 92 0) 0 ≠ 0x4A4F5943 ∧
    (List.replicate 92 0).take 4 ≠ [0x4A, 0x4F, 0x59, 0x43] ∧
    (parse_stored_config (List.replicate 92 0)).isSome = true := by
  refine ⟨by decide, by decide, ?_⟩
  decide

/-! ## C2 — truncation is not reported -/

/-- C2 counterexample: `shortTables96` declares 5 pin-map and 5
logical-input records yet ends right after the count field; decoding
succeeds anyway, returning a partially populated document with an empty
axis table and no records, rather than an `IncompleteTable` error. -/
theorem c2_partial_accepted :
    shortTables96.length = 96 ∧
    (parse_stored_config shortTables96).map
        (fun c => (c.counts, c.axes, c.variable_data_offset)) =
      some (some (5, 5, 0), [], 96) := by
  constructor
  · decide
  · decide

/-! ## C4 — no frame splitting -/

/-- C4 counterexample: a 57-byte payload needs `ceil(57/56) = 2` frames
under the claim, but `create_config_message` emits a single oversized frame:
`totalPackets` stays 1 and the one frame claims all 57 bytes (and is 65
bytes long). -/
theorem c4_no_split :
    (create_config_message 1 0 1 (List.replicate 57 1)).map
        (fun m => (m.length, m.getD 3 0, m.getD 4 0 + 256 * m.getD 5 0)) =
      some (65, 1, 57) ∧ (57 + 56 - 1) / 56 = 2 := by
  constructor
  · decide
  · decide

/-! ## C5 — frames can exceed 64 bytes -/

/-- C5 counterexample: on a 58-byte payload the HID constructor returns a
66-byte frame whose `dataLength` field is 58 — neither exactly 64 bytes
long nor within the 56-byte payload capacity. -/
theorem c5_frame_oversized :
    (create_config_message 3 0 1 (List.replicate 58 2)).map
        (fun m => (m.length, m.getD 4 0 + 256 * m.getD 5 0)) =
      some (66, 58) ∧ ¬ (66 = 64 ∧ 58 ≤ 56) := by
  constructor
  · decide
  · decide

/-! ## C7 — short frames are unwrapped as success -/

/-- C7 counterexample: a 10-byte response frame declaring `dataLength = 50`
holds fewer than `8 + 50` bytes, yet `parse_config_response` returns
success with a 2-byte data field — shorter than its declared length. -/
theorem c7_short_data_accepted :
    (parse_config_response [2, 1, 0, 1, 50, 0, 0, 0, 9, 9]).map
        (fun p => (p.data_length, p.data)) = some (50, [9, 9]) := by
  decide

/-- C1 (amended): the decoders do not validate the magic.  Any buffer of at
least 92 bytes (16-byte header + 76-byte USB block) decodes successfully
with the magic recorded verbatim from its first four bytes, and the serial
decoder likewise accepts any buffer of at least 16 bytes. -/
theorem c1_magic_ignored (d : List Nat) (hlen : 92 ≤ d.length) :
    (∃ c, parse_stored_config d = some c ∧ c.header.magic = readLE32 d 0) ∧
    (parse_config_data d).isSome = true := by
  have h1 : ¬ d.length < 16 := by omega
  have h2 : ¬ (d.drop 16).length < 76 := by
    rw [List.length_drop]; omega
  constructor
  · unfold parse_stored_config parse_config_header parse_usb_descriptor
    rw [if_neg h1, if_neg h2]
    exact ⟨_, rfl, rfl⟩
  · unfold parse_config_data
    rw [if_neg h1]
    rfl

/-- C1 witness: the amended theorem instantiated at the all-zero 92-byte
buffer. -/
theorem c1_magic_ignored_witness :
    (∃ c, parse_stored_config (List.replicate 92 0) = some c ∧
        c.header.magic = readLE32 (List.replicate 92 0) 0) ∧
    (parse_config_data (List.replicate 92 0)).isSome = true :=
  c1_magic_ignored (List.replicate 92 0) (by decide)

/-- C2 (amended): decoding fails exactly when the buffer is shorter than the
92 bytes of header plus USB block; beyond that, missing count, axis or
record bytes never cause a failure — the document is returned partially
populated. -/
theorem c2_decode_none_iff (d : List Nat) :
    parse_stored_config d = none ↔ d.length < 92 := by
  unfold parse_stored_config parse_config_header parse_usb_descriptor
  by_cases h1 : d.length < 16
  · rw [if_pos h1]
    simp only []
    simp
    omega
  · rw [if_neg h1]
    by_cases h2 : (d.drop 16).length < 76
    · rw [if_pos h2]
      rw [List.length_drop] at h2
      simp
      omega
    · rw [if_neg h2]
      rw [List.length_drop] at h2
      simp
      omega

/-- C6: a buffer beginning with the 16 header bytes `4A 4F 59 43`, version
`0x0001`, size `0x0090`, checksum 0 and four reserved zero bytes decodes —
whatever follows — to a header with `magic_str = "JOYC"` and `version = 1`. -/
theorem c6_header_example (rest : List Nat) :
    ∃ h, parse_config_header (hdrC6 ++ rest) = some h ∧
      h.magic_str = "JOYC" ∧ h.version = 1 := by
  refine ⟨{ magic := 0x43594F4A, version := 1, size := 0x90, checksum := 0,
            magic_str := "JOYC" }, ?_, rfl, rfl⟩
  have hlen : (hdrC6 ++ rest).length = 16 + rest.length := by
    rw [List.length_append]
    norm_num [hdrC6]
  have hne : ¬ (hdrC6 ++ rest).length < 16 := by omega
  have h0 : (hdrC6 ++ rest).getD 0 0 = 0x4A := rfl
  have h1 : (hdrC6 ++ rest).getD (0 + 1) 0 = 0x4F := rfl
  have h2 : (hdrC6 ++ rest).getD (0 + 2) 0 = 0x59 := rfl
  have h3 : (hdrC6 ++ rest).getD (0 + 3) 0 = 0x43 := rfl
  have h4 : (hdrC6 ++ rest).getD 4 0 = 1 := rfl
  have h5 : (hdrC6 ++ rest).getD (4 + 1) 0 = 0 := rfl
  have h6 : (hdrC6 ++ rest).getD 6 0 = 0x90 := rfl
  have h7 : (hdrC6 ++ rest).getD (6 + 1) 0 = 0 := rfl
  have h8 : (hdrC6 ++ rest).getD 8 0 = 0 := rfl
  have h9 : (hdrC6 ++ rest).getD (8 + 1) 0 = 0 := rfl
  have h10 : (hdrC6 ++ rest).getD (8 + 2) 0 = 0 := rfl
  have h11 : (hdrC6 ++ rest).getD (8 + 3) 0 = 0 := rfl
  unfold parse_config_header readLE32 readLE16
  rw [if_neg hne, h0, h1, h2, h3, h4, h5, h6, h7, h8, h9, h10, h11]
  decide

/-- C7 (amended): unwrapping a response frame fails only when the buffer is
shorter than the 8-byte frame header; otherwise it succeeds, the data field
being the clamped prefix of length `min dataLength (len - 8)` — a frame
holding fewer than `8 + dataLength` bytes is returned as success with data
shorter than declared, not rejected (and no read goes past the end). -/
theorem c7_clamped_success (r : List Nat) (h : 8 ≤ r.length) :
    ∃ p, parse_config_response r = some p ∧
      p.data.length = min p.data_length (r.length - 8) := by
  have h1 : ¬ r.length < 8 := by omega
  unfold parse_config_response
  rw [if_neg h1]
  refine ⟨_, rfl, ?_⟩
  by_cases hdl : 0 < r.getD 4 0 + 256 * r.getD 5 0
  · simp only [if_pos hdl, List.length_take, List.length_drop]
  · simp only [if_neg hdl, List.length_nil]
    omega

/-- C7 witness: the amended theorem instantiated at a 9-byte frame
declaring 3 data bytes while holding 1. -/
theorem c7_clamped_success_witness :
    ∃ p, parse_config_response [2, 1, 0, 1, 3, 0, 0, 0, 7] = some p ∧
      p.data.length = min p.data_length ([2, 1, 0, 1, 3, 0, 0, 0, 7].length - 8) :=
  c7_clamped_success [2, 1, 0, 1, 3, 0, 0, 0, 7] (by decide)

/-- The frame `create_config_message` builds, in closed form, whenever none
of the Python-level exceptions fire. -/
theorem create_config_message_eq (t : Nat) (data : List Nat) (ht : t < 256)
    (hb : ∀ b ∈ data, b < 256) (hn : data.length < 65536) :
    create_config_message t 0 1 data =
      some ([2, t, 0, 1, data.length % 256, data.length / 256, 0, 0] ++
        data ++ List.replicate (56 - data.length) 0) := by
  have hcond : ¬ (256 ≤ t ∨ 256 ≤ 0 ∨ 256 ≤ 1 ∨ 65536 ≤ data.length ∨
      ¬ data.all (fun b => b < 256)) := by
    push_neg
    refine ⟨by omega, by omega, by omega, by omega, ?_⟩
    rw [List.all_eq_true]
    intro b hbmem
    simpa using hb b hbmem
  unfold create_config_message
  rw [if_neg hcond]

/-- C4 (amended): the constructor never splits a payload: every call yields
exactly one frame whose `sequence` and `totalPackets` are the passed values
(the script always passes the defaults 0 and 1) and whose `dataLength`
equals the full payload size `N` — only for `1 <= N <= 56` does a single
frame coincide with the claimed `ceil(N/56)` frames. -/
theorem c4_single_frame (t : Nat) (data : List Nat) (ht : t < 256)
    (hb : ∀ b ∈ data, b < 256) (hn : data.length < 65536) :
    ∃ m, create_config_message t 0 1 data = some m ∧
      m.getD 2 0 = 0 ∧ m.getD 3 0 = 1 ∧
      m.getD 4 0 + 256 * m.getD 5 0 = data.length := by
  refine ⟨_, create_config_message_eq t data ht hb hn, rfl, rfl, ?_⟩
  show data.length % 256 + 256 * (data.length / 256) = data.length
  omega

/-- C4 witness: the amended theorem instantiated at a 3-byte payload. -/
theorem c4_single_frame_witness :
    ∃ m, create_config_message 1 0 1 [10, 20, 30] = some m ∧
      m.getD 2 0 = 0 ∧ m.getD 3 0 = 1 ∧
      m.getD 4 0 + 256 * m.getD 5 0 = [10, 20, 30].length :=
  c4_single_frame 1 [10, 20, 30] (by decide) (by decide) (by decide)

/-- The copy loop of `create_message` never changes the frame's length. -/
theorem copyData_length (msg data : List Nat) :
    ∀ n, (copyData msg data n).length = msg.length
  | 0 => rfl
  | n + 1 => by
    simp [copyData, List.length_set, copyData_length msg data n]

/-- C5 (amended): the claimed invariants hold only in the single-frame
regime the scripts actually use.  For payloads of at most 56 bytes the HID
constructor emits exactly 64 bytes with `dataLength <= 56` and (with the
default arguments) `sequence < totalPackets`; the winusb constructor always
emits 64 bytes.  For longer payloads the HID frame exceeds 64 bytes and
`dataLength` exceeds 56 (see the counterexample). -/
theorem c5_frame_invariants :
    (∀ t data, t < 256 → (∀ b ∈ data, b < 256) → data.length ≤ 56 →
      ∃ m, create_config_message t 0 1 data = some m ∧ m.length = 64 ∧
        m.getD 4 0 + 256 * m.getD 5 0 ≤ 56 ∧ m.getD 2 0 < m.getD 3 0) ∧
    (∀ t data, (create_message t data).length = 64) := by
  constructor
  · intro t data ht hb hlen
    refine ⟨_, create_config_message_eq t data ht hb (by omega), ?_, ?_, ?_⟩
    · simp [List.length_append]
      omega
    · show data.length % 256 + 256 * (data.length / 256) ≤ 56
      omega
    · exact Nat.zero_lt_one
  · intro t data
    unfold create_message
    rw [copyData_length]
    simp

/-- C5 witness: the first part of the amended theorem instantiated at a
1-byte payload. -/
theorem c5_frame_invariants_witness :
    ∃ m, create_config_message 1 0 1 [9] = some m ∧ m.length = 64 ∧
      m.getD 4 0 + 256 * m.getD 5 0 ≤ 56 ∧ m.getD 2 0 < m.getD 3 0 :=
  c5_frame_invariants.1 1 [9] (by decide) (by decide) (by decide)

/-- C10: the ConfigStatus parser depends only on the first 14 bytes: two
buffers of length at least 20 agreeing on bytes 0-13 parse to equal status
records — the reserved bytes 14-19 and any trailing bytes never influence
the result. -/
theorem c10_first14_determine (d1 d2 : List Nat) (h1 : 20 ≤ d1.length)
    (h2 : 20 ≤ d2.length) (hag : ∀ i, i < 14 → d1.getD i 0 = d2.getD i 0) :
    parse_config_status d1 = parse_config_status d2 := by
  unfold parse_config_status readLE32 readLE16
  rw [if_neg (by omega), if_neg (by omega)]
  rw [hag 0 (by omega), hag 1 (by omega), hag 2 (by omega), hag 3 (by omega),
    hag 4 (by omega), hag (4 + 1) (by omega), hag (4 + 2) (by omega),
    hag (4 + 3) (by omega), hag 8 (by omega), hag (8 + 1) (by omega),
    hag (8 + 2) (by omega), hag (8 + 3) (by omega), hag 12 (by omega),
    hag (12 + 1) (by omega)]

/-- C10 witness: two concrete 20-byte buffers agreeing on bytes 0-13 and
differing in the reserved tail parse identically. -/
theorem c10_first14_determine_witness :
    parse_config_status (List.replicate 20 0) =
      parse_config_status (List.replicate 14 0 ++ [9, 9, 9, 9, 9, 9]) :=
  c10_first14_determine _ _ (by decide) (by decide) (by decide)

/-! ## Splitting lemmas for the line grammars -/

/-- `split(':')` always yields at least one field. -/
theorem splitCols_ne_nil (l : List Char) : splitCols l ≠ [] := by
  cases l with
  | nil => simp [splitCols]
  | cons c cs =>
    simp only [splitCols]
    split <;> simp

/-- A colon-free string is a single field. -/
theorem splitCols_colonfree (l : List Char) (h : ∀ c ∈ l, c ≠ ':') :
    splitCols l = [l] := by
  induction l with
  | nil => rfl
  | cons c cs ih =>
    have hc : c ≠ ':' := h c (by simp)
    have hcs : ∀ x ∈ cs, x ≠ ':' := fun x hx => h x (by simp [hx])
    simp [splitCols, if_neg hc, ih hcs]

/-- Splitting after a colon-free first field peels it off. -/
theorem splitCols_append (p : List Char) (hp : ∀ c ∈ p, c ≠ ':')
    (q : List Char) : splitCols (p ++ ':' :: q) = p :: splitCols q := by
  induction p with
  | nil => simp [splitCols]
  | cons c cs ih =>
    have hc : c ≠ ':' := hp c (by simp)
    have hcs : ∀ x ∈ cs, x ≠ ':' := fun x hx => hp x (by simp [hx])
    simp [splitCols, if_neg hc, ih hcs]

/-- Structural inversion of `split(':')`: the first field is colon-free and
the input is either that field alone or that field, a colon, and a
remainder splitting to the other fields. -/
theorem splitCols_inv (l : List Char) :
    ∀ f fs, splitCols l = f :: fs →
      (∀ c ∈ f, c ≠ ':') ∧
        ((fs = [] ∧ l = f) ∨ ∃ q, l = f ++ ':' :: q ∧ splitCols q = fs) := by
  induction l with
  | nil =>
    intro f fs h
    simp only [splitCols] at h
    obtain ⟨hf, hfs⟩ := List.cons.inj h
    exact ⟨by simp [← hf], Or.inl ⟨hfs.symm, hf⟩⟩
  | cons c cs ih =>
    intro f fs h
    by_cases hc : c = ':'
    · subst hc
      simp only [splitCols, if_pos rfl] at h
      obtain ⟨hf, hfs⟩ := List.cons.inj h
      refine ⟨by simp [← hf], Or.inr ⟨cs, ?_, hfs⟩⟩
      rw [← hf]
      rfl
    · obtain ⟨h0, t0, hsc⟩ : ∃ h0 t0, splitCols cs = h0 :: t0 := by
        cases hsc : splitCols cs with
        | nil => exact absurd hsc (splitCols_ne_nil cs)
        | cons a b => exact ⟨a, b, rfl⟩
      rw [show splitCols (c :: cs) = (c :: h0) :: t0 by
        simp [splitCols, if_neg hc, hsc]] at h
      obtain ⟨hf, hfs⟩ := List.cons.inj h
      obtain ⟨hcf, hrest⟩ := ih h0 t0 hsc
      constructor
      · rw [← hf]
        intro x hx
        rcases List.mem_cons.mp hx with hx | hx
        · rw [hx]; exact hc
        · exact hcf x hx
      · rcases hrest with ⟨ht0, hcs0⟩ | ⟨q, hcs0, hq⟩
        · left
          refine ⟨by rw [← hfs, ht0], ?_⟩
          rw [← hf, hcs0]
        · right
          refine ⟨q, ?_, by rw [← hfs, hq]⟩
          rw [← hf, hcs0]
          rfl

/-- The fixed prefix of a valid IDENTIFY response:
`JOYCORE_ID:JOYCORE-FW:4A4F5943:`. -/
def joyTag : List Char := "JOYCORE_ID:JOYCORE-FW:4A4F5943:".toList

/-- The tag decomposes into its three colon-free fields. -/
theorem joyTag_fields :
    joyTag = "JOYCORE_ID".toList ++ ':' ::
      ("JOYCORE-FW".toList ++ ':' :: ("4A4F5943".toList ++ ':' :: [])) := by
  decide

/-- C8: a serial identification line is recognized (the version returned)
exactly when it is the fixed prefix `JOYCORE_ID:JOYCORE-FW:4A4F5943:`
followed by a colon-free fourth field — alone, or followed by a colon and
arbitrary further text — and the returned version is that fourth field. -/
theorem c8_identify_iff (line v : List Char) :
    identify line = some v ↔
      (∀ c ∈ v, c ≠ ':') ∧
        (line = joyTag ++ v ∨ ∃ r, line = joyTag ++ (v ++ ':' :: r)) := by
  constructor
  · intro h
    unfold identify at h
    by_cases hcond : 4 ≤ (splitCols line).length ∧
        (splitCols line).getD 0 [] = "JOYCORE_ID".toList ∧
        (splitCols line).getD 1 [] = "JOYCORE-FW".toList ∧
        (splitCols line).getD 2 [] = "4A4F5943".toList
    · rw [if_pos hcond] at h
      obtain ⟨hlen, h0, h1, h2⟩ := hcond
      obtain ⟨p0, p1, p2, p3, tl, hparts⟩ :
          ∃ p0 p1 p2 p3 tl, splitCols line = p0 :: p1 :: p2 :: p3 :: tl := by
        rcases hsc : splitCols line with _ | ⟨a, _ | ⟨b, _ | ⟨c, _ | ⟨e, tl⟩⟩⟩⟩ <;>
          rw [hsc] at hlen <;> simp at hlen
        exact ⟨a, b, c, e, tl, rfl⟩
      rw [hparts] at h0 h1 h2 h
      simp only [List.getD_cons_zero, List.getD_cons_succ] at h0 h1 h2 h
      obtain ⟨hcf0, hrest0⟩ := splitCols_inv line _ _ hparts
      rcases hrest0 with ⟨habs, _⟩ | ⟨q1, hline1, hq1⟩
      · exact absurd habs (by simp)
      obtain ⟨hcf1, hrest1⟩ := splitCols_inv q1 _ _ hq1
      rcases hrest1 with ⟨habs, _⟩ | ⟨q2, hline2, hq2⟩
      · exact absurd habs (by simp)
      obtain ⟨hcf2, hrest2⟩ := splitCols_inv q2 _ _ hq2
      rcases hrest2 with ⟨habs, _⟩ | ⟨q3, hline3, hq3⟩
      · exact absurd habs (by simp)
      obtain ⟨hcf3, hrest3⟩ := splitCols_inv q3 _ _ hq3
      have hv : v = p3 := by
        simpa using h.symm
      subst hv
      have hassoc : line = joyTag ++ q3 := by
        rw [hline1, hline2, hline3, h0, h1, h2, joyTag_fields]
        simp
      refine ⟨hcf3, ?_⟩
      rcases hrest3 with ⟨_, hq3e⟩ | ⟨q4, hq3e, _⟩
      · left
        rw [hassoc, hq3e]
      · right
        exact ⟨q4, by rw [hassoc, hq3e]⟩
    · rw [if_neg hcond] at h
      exact absurd h (by simp)
  · rintro ⟨hv, hcase | ⟨r, hcase⟩⟩
    · have hsc : splitCols line =
          ["JOYCORE_ID".toList, "JOYCORE-FW".toList, "4A4F5943".toList, v] := by
        rw [hcase, joyTag_fields]
        simp only [List.append_assoc, List.cons_append, List.nil_append]
        rw [splitCols_append _ (by decide) _, splitCols_append _ (by decide) _,
          splitCols_append _ (by decide) _, splitCols_colonfree v hv]
      unfold identify
      rw [hsc]
      simp [List.getD]
    · have hsc : splitCols line =
          "JOYCORE_ID".toList :: "JOYCORE-FW".toList :: "4A4F5943".toList ::
            v :: splitCols r := by
        rw [hcase, joyTag_fields]
        simp only [List.append_assoc, List.cons_append, List.nil_append]
        rw [splitCols_append _ (by decide) _, splitCols_append _ (by decide) _,
          splitCols_append _ (by decide) _, splitCols_append _ hv _]
      unfold identify
      rw [hsc]
      simp [List.getD]

/-! ## FILE_DATA line lemmas -/

/-- Decimal digits render as digit characters. -/
theorem digitChar_isDigit (k : Nat) (h : k < 10) :
    (Char.ofNat (48 + k)).isDigit = true := by
  interval_cases k <;> decide

/-- Every character of `str(n)` is a decimal digit. -/
theorem toDec_all_digit (n : Nat) : ∀ c ∈ toDec n, c.isDigit = true := by
  induction n using Nat.strong_induction_on with
  | _ n ih =>
    unfold toDec
    by_cases h : n < 10
    · rw [dif_pos h]
      intro c hc
      rw [List.mem_singleton] at hc
      rw [hc]
      exact digitChar_isDigit n h
    · rw [dif_neg h]
      intro c hc
      rcases List.mem_append.mp hc with h1 | h1
      · exact ih (n / 10) (Nat.div_lt_self (by omega) (by omega)) c h1
      · rw [List.mem_singleton] at h1
        rw [h1]
        exact digitChar_isDigit (n % 10) (Nat.mod_lt _ (by omega))

/-- `str(n)` is never empty. -/
theorem toDec_ne_nil (n : Nat) : toDec n ≠ [] := by
  unfold toDec
  by_cases h : n < 10
  · rw [dif_pos h]
    simp
  · rw [dif_neg h]
    simp

/-- A digit character is not a colon. -/
theorem isDigit_ne_colon (c : Char) (h : c.isDigit = true) : c ≠ ':' := by
  intro he
  rw [he] at h
  exact absurd h (by decide)

/-- Parsing `str(n)` with `int()` does not raise. -/
theorem pyInt_toDec_isSome (n : Nat) : ∃ k, pyInt (toDec n) = some k := by
  unfold pyInt
  rw [if_pos ⟨toDec_ne_nil n, List.all_eq_true.mpr (toDec_all_digit n)⟩]
  exact ⟨_, rfl⟩

/-- A lowercase hex digit evaluates back to its value. -/
theorem hexVal_hexL (k : Nat) (h : k < 16) : hexVal (hexL k) = some k := by
  interval_cases k <;> decide

/-- `bytes.fromhex` inverts `bytes.hex()` on genuine byte values. -/
theorem fromHex_toHex (d : List Nat) (hd : ∀ b ∈ d, b < 256) :
    fromHex (toHex d) = some d := by
  induction d with
  | nil => rfl
  | cons b bs ih =>
    have hb : b < 256 := hd b (by simp)
    have hbs : ∀ x ∈ bs, x < 256 := fun x hx => hd x (by simp [hx])
    have h1 : b / 16 < 16 := by omega
    have h2 : b % 16 < 16 := by omega
    have hstep : toHex (b :: bs) = hexL (b / 16) :: hexL (b % 16) :: toHex bs := by
      simp [toHex]
    rw [hstep]
    simp only [fromHex, hexVal_hexL _ h1, hexVal_hexL _ h2, ih hbs]
    have : 16 * (b / 16) + b % 16 = b := by omega
    rw [this]

/-- Locating the first colon after a colon-free first segment. -/
theorem breakColon_append (p : List Char) (hp : ∀ c ∈ p, c ≠ ':')
    (q : List Char) : breakColon (p ++ ':' :: q) = some (p, q) := by
  induction p with
  | nil => simp [breakColon]
  | cons c cs ih =>
    have hc : c ≠ ':' := hp c (by simp)
    have hcs : ∀ x ∈ cs, x ≠ ':' := fun x hx => hp x (by simp [hx])
    simp [breakColon, if_neg hc, ih hcs]

/-- One `split(':', maxsplit)` step peels off a colon-free first field. -/
theorem splitMax_succ_append (n : Nat) (p : List Char)
    (hp : ∀ c ∈ p, c ≠ ':') (q : List Char) :
    splitMax (n + 1) (p ++ ':' :: q) = p :: splitMax n q := by
  simp only [splitMax, breakColon_append p hp q]

/-- The well-formed FILE_DATA line splits (maxsplit 3) into exactly the four
expected fields. -/
theorem splitMax_fileDataLine (name : List Char) (hn : ∀ c ∈ name, c ≠ ':')
    (d : List Nat) :
    splitMax 3 (fileDataLine name d) =
      ["FILE_DATA".toList, name, toDec d.length, toHex d] := by
  have hshape : fileDataLine name d = "FILE_DATA".toList ++ ':' ::
      (name ++ ':' :: (toDec d.length ++ ':' :: toHex d)) := by
    unfold fileDataLine
    simp
  have hdec : ∀ c ∈ toDec d.length, c ≠ ':' :=
    fun c hc => isDigit_ne_colon c (toDec_all_digit d.length c hc)
  rw [hshape,
    splitMax_succ_append 2 ("FILE_DATA".toList) (by decide)
      (name ++ ':' :: (toDec d.length ++ ':' :: toHex d)),
    splitMax_succ_append 1 name hn (toDec d.length ++ ':' :: toHex d),
    splitMax_succ_append 0 (toDec d.length) hdec (toHex d)]
  rfl

/-- C9: parsing a well-formed `FILE_DATA:<name>:<size>:<hexbytes>` line
returns exactly the file name and the decoded bytes; a line that does not
start with `FILE_DATA:`, or that does not split (maxsplit 3) into four
colon-separated fields, returns the failure pair `(None, None)`. -/
theorem c9_file_data_grammar :
    (∀ (name : List Char) (d : List Nat), (∀ c ∈ name, c ≠ ':') →
        (∀ b ∈ d, b < 256) →
        parse_file_data (fileDataLine name d) = some (some name, some d)) ∧
    (∀ line, startsWith "FILE_DATA:".toList line = false →
        parse_file_data line = some (none, none)) ∧
    (∀ line, startsWith "FILE_DATA:".toList line = true →
        (splitMax 3 line).length ≠ 4 →
        parse_file_data line = some (none, none)) := by
  refine ⟨?_, ?_, ?_⟩
  · intro name d hn hd
    have hshape : fileDataLine name d = "FILE_DATA:".toList ++
        (name ++ ':' :: (toDec d.length ++ ':' :: toHex d)) := by
      unfold fileDataLine
      simp
    have hsw : startsWith "FILE_DATA:".toList (fileDataLine name d) = true := by
      rw [hshape]
      unfold startsWith
      rw [List.take_append_of_le_length (by simp)]
      simp
    obtain ⟨k, hk⟩ := pyInt_toDec_isSome d.length
    unfold parse_file_data
    rw [hsw, splitMax_fileDataLine name hn d]
    simp only [List.length_cons, List.length_nil, List.getD_cons_zero,
      List.getD_cons_succ]
    rw [hk, fromHex_toHex d hd]
    simp
  · intro line h
    unfold parse_file_data
    rw [h]
    simp
  · intro line h1 h2
    unfold parse_file_data
    rw [h1, if_neg (by simp), if_pos h2]

/-- C9 witness: the grammar theorem applied to the concrete line
`FILE_DATA:a:2:00ff`, to a non-FILE_DATA line, and to a truncated
FILE_DATA line with too few fields. -/
theorem c9_file_data_grammar_witness :
    parse_file_data (fileDataLine "a".toList [0, 255]) =
        some (some "a".toList, some [0, 255]) ∧
    parse_file_data "HELLO".toList = some (none, none) ∧
    parse_file_data "FILE_DATA:x".toList = some (none, none) :=
  ⟨c9_file_data_grammar.1 "a".toList [0, 255] (by decide) (by decide),
   c9_file_data_grammar.2.1 "HELLO".toList (by decide),
   c9_file_data_grammar.2.2 "FILE_DATA:x".toList (by decide) (by decide)⟩

/-- C8 witness: the identify characterization applied to the concrete
response `JOYCORE_ID:JOYCORE-FW:4A4F5943:1.0`. -/
theorem c8_identify_iff_witness :
    identify "JOYCORE_ID:JOYCORE-FW:4A4F5943:1.0".toList =
      some "1.0".toList :=
  (c8_identify_iff _ _).mpr ⟨by decide, Or.inl (by decide)⟩

end JoyCore
